import Mathlib

/-!
Verification of the memory relevance and consolidation subsystem of the
Companion application (companion_ai/memory.py, companion_ai/memory_ai.py,
companion_ai/llm_interface.py), shallowly embedded in Lean.

Modelling conventions:
* SQLite tables become Lean lists kept in reverse chronological order
  (most recently inserted record first), matching ORDER BY timestamp DESC.
* REAL columns and Python floats become exact rationals; timestamps become
  natural numbers, and the moving cutoffs computed by datetime arithmetic
  become explicit cutoff parameters.
* Python strings are handled at the character-list level; lowering is the
  ASCII lowering performed by Char.toLower.
* The external LLM is an oracle parameter (a reply string, or an
  Except value when the call can raise).
-/

/-- Whitespace test used by the modelled Python string primitives. -/
def wsB (c : Char) : Bool := c.isWhitespace

/-- Python str.strip on a list of characters: drop leading and trailing
whitespace. -/
def pyStrip (l : List Char) : List Char :=
  ((l.dropWhile wsB).reverse.dropWhile wsB).reverse

/-- Python str.lower on a string, as a list of characters. -/
def lowerStr (t : String) : List Char := t.data.map Char.toLower

/-- Python str.split with no separator argument: the maximal whitespace-free
chunks of the text, in order, written with an explicit accumulator so that the
definition is structurally recursive. -/
def wordsAcc : List Char → List Char → List (List Char)
  | [], acc => if acc.isEmpty then [] else [acc.reverse]
  | c :: cs, acc =>
    if wsB c then
      if acc.isEmpty then wordsAcc cs [] else acc.reverse :: wordsAcc cs []
    else wordsAcc cs (c :: acc)

/-- The word list of a character list (Python text.split()). -/
def wordsCh (l : List Char) : List (List Char) := wordsAcc l []

/-- memory.generate_content_hash: md5 hexdigest of text.lower().strip().
The digest is a deterministic function of the normalized text; it is modelled
by the normalized character list itself (collisions of md5 are ignored). -/
def generate_content_hash (text : String) : List Char := pyStrip (lowerStr text)

/-- The lower-cased word set of a text, as built inside
memory.calculate_text_similarity by set(text.lower().split()). -/
def wordSet (t : String) : Finset (List Char) := (wordsCh (lowerStr t)).toFinset

/-- memory.calculate_text_similarity: Jaccard overlap of the lowercase word
sets of the two texts, 0.0 when either word set is empty. -/
def calculate_text_similarity (t1 t2 : String) : ℚ :=
  if wordSet t1 = ∅ ∨ wordSet t2 = ∅ then 0
  else ((wordSet t1 ∩ wordSet t2).card : ℚ) / ((wordSet t1 ∪ wordSet t2).card : ℚ)

/-! Evaluation helpers for the similarity function: the rational arithmetic
cannot be evaluated by kernel reduction (Rat normalisation is not
kernel-reducible), so concrete similarity values are obtained by combining
kernel-checked facts about the word sets with rational rewriting. -/

theorem sim_eval {t1 t2 : String} {i u : ℕ} (h1 : wordSet t1 ≠ ∅)
    (h2 : wordSet t2 ≠ ∅) (hi : (wordSet t1 ∩ wordSet t2).card = i)
    (hu : (wordSet t1 ∪ wordSet t2).card = u) :
    calculate_text_similarity t1 t2 = (i : ℚ) / (u : ℚ) := by
  unfold calculate_text_similarity
  rw [if_neg (by push_neg; exact ⟨h1, h2⟩), hi, hu]

theorem sim_zero {t1 t2 : String} (h : (wordSet t1 ∩ wordSet t2).card = 0) :
    calculate_text_similarity t1 t2 = 0 := by
  unfold calculate_text_similarity
  by_cases hb : wordSet t1 = ∅ ∨ wordSet t2 = ∅
  · rw [if_pos hb]
  · rw [if_neg hb, h]
    simp

theorem sim_of_eq_wordSet {t1 t2 : String} (h : wordSet t1 = wordSet t2)
    (hne : wordSet t1 ≠ ∅) : calculate_text_similarity t1 t2 = 1 := by
  unfold calculate_text_similarity
  rw [if_neg (by push_neg; exact ⟨hne, h ▸ hne⟩), h,
    Finset.inter_self, Finset.union_self]
  have hc : (wordSet t2).card ≠ 0 := by
    simpa [Finset.card_eq_zero] using (h ▸ hne)
  rw [div_self (by exact_mod_cast hc)]

example : calculate_text_similarity "a b c d e f" "a b c d e g" = 5 / 7 := by
  rw [sim_eval (by decide) (by decide) (by decide : _ = 5) (by decide : _ = 7)]
  norm_num

example : calculate_text_similarity "a b" "b a" = 1 :=
  sim_of_eq_wordSet (by decide) (by decide)

example : calculate_text_similarity "  " "a" = 0 := by
  unfold calculate_text_similarity
  rw [if_pos (Or.inl (by decide))]

example : generate_content_hash "A b " = generate_content_hash "a b" := by decide

/-! Word splitting is invariant under stripping leading and trailing
whitespace, so texts with the same normalized form (the same content hash)
have the same word list and hence the same word set. -/

theorem wordsAcc_all_ws {s : List Char} (hs : ∀ c ∈ s, wsB c = true)
    (acc : List Char) : wordsAcc s acc = wordsAcc [] acc := by
  induction s generalizing acc with
  | nil => rfl
  | cons c cs ih =>
    have hc : wsB c = true := hs c (List.mem_cons_self c cs)
    have hcs : ∀ x ∈ cs, wsB x = true := fun x hx => hs x (List.mem_cons_of_mem c hx)
    have h0 : wordsAcc cs [] = [] := by
      have := ih hcs []
      simpa [wordsAcc] using this
    by_cases he : acc.isEmpty
    · simp [wordsAcc, hc, he, h0]
    · simp [wordsAcc, hc, he, h0]

theorem wordsAcc_append_ws {s : List Char} (hs : ∀ c ∈ s, wsB c = true)
    (l : List Char) : ∀ acc : List Char, wordsAcc (l ++ s) acc = wordsAcc l acc := by
  induction l with
  | nil =>
    intro acc
    simpa using wordsAcc_all_ws hs acc
  | cons c cs ih =>
    intro acc
    by_cases hc : wsB c
    · by_cases he : acc.isEmpty
      · simp [wordsAcc, hc, he, ih]
      · simp [wordsAcc, hc, he, ih]
    · simp [wordsAcc, hc, ih]

theorem wordsAcc_dropWhile_ws (l : List Char) :
    wordsAcc (l.dropWhile wsB) [] = wordsAcc l [] := by
  induction l with
  | nil => rfl
  | cons c cs ih =>
    by_cases hc : wsB c
    · simpa [List.dropWhile, hc, wordsAcc] using ih
    · simp [List.dropWhile, hc]

theorem mem_takeWhile_ws {p : Char → Bool} :
    ∀ {l : List Char} {c : Char}, c ∈ l.takeWhile p → p c = true := by
  intro l
  induction l with
  | nil => intro c hc; simp [List.takeWhile] at hc
  | cons a as ih =>
    intro c hc
    by_cases ha : p a
    · rw [List.takeWhile] at hc
      simp [ha] at hc
      rcases hc with rfl | hc
      · exact ha
      · exact ih hc
    · rw [List.takeWhile] at hc
      simp [Bool.of_not_eq_true ha] at hc

theorem wordsCh_pyStrip (l : List Char) : wordsCh (pyStrip l) = wordsCh l := by
  unfold wordsCh pyStrip
  set m := l.dropWhile wsB with hm
  have hdecomp : m = (m.reverse.dropWhile wsB).reverse ++ (m.reverse.takeWhile wsB).reverse := by
    conv_lhs => rw [← m.reverse_reverse]
    rw [← List.reverse_append, List.takeWhile_append_dropWhile]
  have hws : ∀ c ∈ (m.reverse.takeWhile wsB).reverse, wsB c = true := by
    intro c hc
    rw [List.mem_reverse] at hc
    exact mem_takeWhile_ws hc
  calc wordsAcc (m.reverse.dropWhile wsB).reverse [] =
      wordsAcc ((m.reverse.dropWhile wsB).reverse ++ (m.reverse.takeWhile wsB).reverse) [] :=
        (wordsAcc_append_ws hws _ []).symm
    _ = wordsAcc m [] := by rw [← hdecomp]
    _ = wordsAcc l [] := wordsAcc_dropWhile_ws l

theorem wordSet_eq_of_hash_eq {t1 t2 : String}
    (h : generate_content_hash t1 = generate_content_hash t2) :
    wordSet t1 = wordSet t2 := by
  unfold wordSet
  have h1 : wordsCh (lowerStr t1) = wordsCh (lowerStr t2) := by
    rw [← wordsCh_pyStrip (lowerStr t1), ← wordsCh_pyStrip (lowerStr t2)]
    exact congrArg wordsCh h
  rw [h1]

theorem sim_congr_left {t1 t2 : String} (h : wordSet t1 = wordSet t2)
    (x : String) : calculate_text_similarity t1 x = calculate_text_similarity t2 x := by
  unfold calculate_text_similarity
  rw [h]

/-- A row of the conversation_summaries table. -/
structure SummaryRec where
  id : ℕ
  text : String
  hash : List Char
  relevance : ℚ
  timestamp : ℕ
deriving DecidableEq

/-- The exact-duplicate check of memory.add_summary: some stored summary
already carries the content hash. -/
def hashDup (store : List SummaryRec) (h : List Char) : Bool :=
  store.any (fun r => r.hash == h)

/-- The similarity check of memory.add_summary: some of the 10 most recently
stored summaries has similarity above 0.7 with the new text. -/
def similarRecent (store : List SummaryRec) (t : String) : Bool :=
  (store.take 10).any (fun r => decide (calculate_text_similarity t r.text > 7 / 10))

/-- memory.add_summary: skip when the content hash is already stored or some
of the last 10 summaries is more than 0.7-similar, otherwise insert a new row
carrying the text, its content hash and the relevance score. -/
def add_summary (store : List SummaryRec) (text : String) (relevance : ℚ)
    (newId newTs : ℕ) : List SummaryRec :=
  if hashDup store (generate_content_hash text) then store
  else if similarRecent store text then store
  else ⟨newId, text, generate_content_hash text, relevance, newTs⟩ :: store

theorem add_summary_skip_hash {store : List SummaryRec} {text : String}
    {relevance : ℚ} {newId newTs : ℕ}
    (h : hashDup store (generate_content_hash text) = true) :
    add_summary store text relevance newId newTs = store := by
  unfold add_summary
  rw [h]
  rfl

theorem add_summary_skip_sim {store : List SummaryRec} {text : String}
    {relevance : ℚ} {newId newTs : ℕ}
    (h1 : hashDup store (generate_content_hash text) = false)
    (h2 : similarRecent store text = true) :
    add_summary store text relevance newId newTs = store := by
  unfold add_summary
  rw [h1, h2]
  rfl

theorem add_summary_insert_eq {store : List SummaryRec} {text : String}
    {relevance : ℚ} {newId newTs : ℕ}
    (h1 : hashDup store (generate_content_hash text) = false)
    (h2 : similarRecent store text = false) :
    add_summary store text relevance newId newTs =
      ⟨newId, text, generate_content_hash text, relevance, newTs⟩ :: store := by
  unfold add_summary
  rw [h1, h2]
  rfl

theorem similarRecent_congr {t1 t2 : String} (h : wordSet t1 = wordSet t2)
    (store : List SummaryRec) : similarRecent store t1 = similarRecent store t2 := by
  unfold similarRecent
  have : (fun r : SummaryRec => decide (calculate_text_similarity t1 r.text > 7 / 10)) =
      (fun r : SummaryRec => decide (calculate_text_similarity t2 r.text > 7 / 10)) := by
    funext r
    rw [sim_congr_left h]
  rw [this]

/-- No two stored summaries carry the same content hash. -/
def hashUnique (store : List SummaryRec) : Prop :=
  store.Pairwise (fun a b => a.hash ≠ b.hash)

theorem hashDup_eq_false_iff {store : List SummaryRec} {h : List Char} :
    hashDup store h = false ↔ ∀ r ∈ store, r.hash ≠ h := by
  unfold hashDup
  rw [List.any_eq_false]
  constructor
  · intro hall r hr
    have := hall r hr
    simpa using this
  · intro hall r hr
    simpa using hall r hr

theorem add_summary_preserves_hashUnique {store : List SummaryRec}
    {text : String} {relevance : ℚ} {newId newTs : ℕ}
    (hu : hashUnique store) :
    hashUnique (add_summary store text relevance newId newTs) := by
  unfold add_summary
  by_cases h1 : hashDup store (generate_content_hash text)
  · rw [h1]; exact hu
  · rw [Bool.not_eq_true] at h1
    rw [h1]
    by_cases h2 : similarRecent store text
    · rw [h2]; exact hu
    · rw [Bool.not_eq_true] at h2
      rw [h2]
      simp only [Bool.false_eq_true, if_false]
      refine List.Pairwise.cons ?_ hu
      intro r hr hcontra
      exact (hashDup_eq_false_iff.mp h1) r hr hcontra.symm

example : add_summary [] "hi" 1 0 0 = [⟨0, "hi", generate_content_hash "hi", 1, 0⟩] :=
  add_summary_insert_eq rfl rfl

theorem add_summary_idem_helper {store : List SummaryRec} {t1 t2 : String}
    {rel1 rel2 : ℚ} {i1 i2 n1 n2 : ℕ}
    (h : generate_content_hash t1 = generate_content_hash t2) :
    add_summary (add_summary store t1 rel1 i1 n1) t2 rel2 i2 n2 =
      add_summary store t1 rel1 i1 n1 := by
  by_cases h1 : hashDup store (generate_content_hash t1) = true
  · rw [add_summary_skip_hash h1]
    apply add_summary_skip_hash
    rw [← h]
    exact h1
  · have h1f : hashDup store (generate_content_hash t1) = false := by
      simpa using h1
    by_cases h2 : similarRecent store t1 = true
    · rw [add_summary_skip_sim h1f h2]
      apply add_summary_skip_sim
      · rw [← h]; exact h1f
      · rw [← similarRecent_congr (wordSet_eq_of_hash_eq h)]; exact h2
    · have h2f : similarRecent store t1 = false := by simpa using h2
      rw [add_summary_insert_eq h1f h2f]
      apply add_summary_skip_hash
      unfold hashDup
      rw [List.any_cons]
      simp [h]

/-- C1: add_summary leaves the store unchanged exactly when the content hash
of the lower-cased, trimmed text is already stored or some of the 10 most
recently stored summaries has similarity above 0.7 with the new text;
otherwise it inserts exactly one new record carrying the text, its content
hash and the given relevance score. -/
theorem claim_c1_add_summary_dedupe (store : List SummaryRec) (text : String)
    (rel : ℚ) (i n : ℕ) :
    (add_summary store text rel i n = store ↔
      hashDup store (generate_content_hash text) = true ∨
        similarRecent store text = true)
    ∧ (hashDup store (generate_content_hash text) = false →
        similarRecent store text = false →
        add_summary store text rel i n =
          ⟨i, text, generate_content_hash text, rel, n⟩ :: store) := by
  constructor
  · constructor
    · intro heq
      by_cases h1 : hashDup store (generate_content_hash text) = true
      · exact Or.inl h1
      · have h1f : hashDup store (generate_content_hash text) = false := by simpa using h1
        by_cases h2 : similarRecent store text = true
        · exact Or.inr h2
        · have h2f : similarRecent store text = false := by simpa using h2
          rw [add_summary_insert_eq h1f h2f] at heq
          exact absurd heq (List.cons_ne_self _ _)
    · intro hor
      rcases hor with h1 | h2
      · exact add_summary_skip_hash h1
      · by_cases h1 : hashDup store (generate_content_hash text) = true
        · exact add_summary_skip_hash h1
        · exact add_summary_skip_sim (by simpa using h1) h2
  · intro h1 h2
    exact add_summary_insert_eq h1 h2

theorem claim_c1_witness :
    add_summary [] "hi" 1 0 0 = [⟨0, "hi", generate_content_hash "hi", 1, 0⟩] :=
  (claim_c1_add_summary_dedupe [] "hi" 1 0 0).2 rfl rfl

/-- C2: when both lower-cased word sets are non-empty, the similarity is the
Jaccard overlap, the size of the intersection divided by the size of the union
of the two word sets. -/
theorem claim_c2_similarity_is_jaccard (t1 t2 : String)
    (h1 : wordSet t1 ≠ ∅) (h2 : wordSet t2 ≠ ∅) :
    calculate_text_similarity t1 t2 =
      ((wordSet t1 ∩ wordSet t2).card : ℚ) / ((wordSet t1 ∪ wordSet t2).card : ℚ) :=
  sim_eval h1 h2 rfl rfl

theorem claim_c2_witness :
    calculate_text_similarity "a b" "b c" =
      ((wordSet "a b" ∩ wordSet "b c").card : ℚ) /
        ((wordSet "a b" ∪ wordSet "b c").card : ℚ) :=
  claim_c2_similarity_is_jaccard "a b" "b c" (by decide) (by decide)

/-- C4: calling add_summary twice with texts that agree after lower-casing
and trimming (equal content hashes) is idempotent: the second call leaves the
store exactly as the first call left it, content-hash uniqueness is preserved,
and from the empty store the two calls yield exactly one stored record. -/
theorem claim_c4_dedupe_idempotent (store : List SummaryRec) (t1 t2 : String)
    (rel1 rel2 : ℚ) (i1 i2 n1 n2 : ℕ)
    (h : generate_content_hash t1 = generate_content_hash t2) :
    add_summary (add_summary store t1 rel1 i1 n1) t2 rel2 i2 n2 =
        add_summary store t1 rel1 i1 n1
    ∧ (hashUnique store → hashUnique (add_summary store t1 rel1 i1 n1))
    ∧ add_summary (add_summary [] t1 rel1 i1 n1) t2 rel2 i2 n2 =
        [⟨i1, t1, generate_content_hash t1, rel1, n1⟩] :=
  ⟨add_summary_idem_helper h,
   fun hu => add_summary_preserves_hashUnique hu,
   (add_summary_idem_helper h).trans (add_summary_insert_eq rfl rfl)⟩

theorem claim_c4_witness :
    add_summary (add_summary [] "A b " 1 0 0) "a b" 1 1 1 =
      [⟨0, "A b ", generate_content_hash "A b ", 1, 0⟩] :=
  (claim_c4_dedupe_idempotent [] "A b " "a b" 1 1 0 1 0 1 (by decide)).2.2

/-- C10: the similarity function is total and returns 0 whenever either text
has no words after lower-casing and whitespace splitting, so the division by
the size of the word-set union is never reached with an empty union. -/
theorem claim_c10_similarity_empty_zero (t1 t2 : String)
    (h : wordSet t1 = ∅ ∨ wordSet t2 = ∅) :
    calculate_text_similarity t1 t2 = 0 := by
  unfold calculate_text_similarity
  rw [if_pos h]

theorem claim_c10_witness : calculate_text_similarity "  " "a" = 0 :=
  claim_c10_similarity_empty_zero "  " "a" (Or.inl (by decide))

/-- Case-insensitive substring occurrence: findSub pat l is the first index
at which pat occurs in l (Python "pat in s" and the ASCII-case-insensitive
SQLite LIKE with wildcards on both sides are built on it). -/
def findSub (pat : List Char) : List Char → Option ℕ
  | [] => if pat.isPrefixOf ([] : List Char) then some 0 else none
  | c :: cs =>
    if pat.isPrefixOf (c :: cs) then some 0
    else (findSub pat cs).map (fun k => k + 1)

/-- Python substring containment: pat in s. -/
def containsSub (s : List Char) (pat : String) : Bool := (findSub pat.data s).isSome

/-- SQLite: column LIKE the pattern with percent wildcards on both sides,
which matches ASCII letters case-insensitively. -/
def likeContains (s : String) (pat : String) : Bool :=
  containsSub (s.data.map Char.toLower) pat

/-- A row of the user_profile table (key is the primary key). -/
structure ProfileFact where
  key : String
  value : String
  confidence : ℚ
  last_updated : ℕ
  source : String
deriving DecidableEq

/-- memory.upsert_profile_fact: if the key exists, update value, confidence,
source and last_updated only when the new confidence is strictly higher or the
value differs; otherwise insert a fresh row. -/
def upsert_profile_fact (db : List ProfileFact) (key value : String)
    (confidence : ℚ) (source : String) (now : ℕ) : List ProfileFact :=
  match db.find? (fun r => r.key == key) with
  | some existing =>
    if confidence > existing.confidence ∨ existing.value ≠ value then
      db.map (fun r => if r.key == key then ⟨key, value, confidence, now, source⟩ else r)
    else db
  | none => db ++ [⟨key, value, confidence, now, source⟩]

/-- C3: upsert_profile_fact overwrites the row for an existing key only when
the new confidence is at least the stored one or the value differs; and an
update with strictly lower confidence and an identical value leaves the store
(value, confidence, source and last_updated of every row) unchanged. -/
theorem claim_c3_confidence_upsert (db : List ProfileFact) (key value : String)
    (confidence : ℚ) (source : String) (now : ℕ) :
    (∀ r, db.find? (fun x => x.key == key) = some r →
      upsert_profile_fact db key value confidence source now ≠ db →
      confidence ≥ r.confidence ∨ value ≠ r.value)
    ∧ (∀ r, db.find? (fun x => x.key == key) = some r →
      r.value = value → confidence < r.confidence →
      upsert_profile_fact db key value confidence source now = db) := by
  constructor
  · intro r hr hne
    unfold upsert_profile_fact at hne
    rw [hr] at hne
    dsimp only at hne
    by_cases hcond : confidence > r.confidence ∨ r.value ≠ value
    · rcases hcond with hgt | hv
      · exact Or.inl (le_of_lt hgt)
      · exact Or.inr (fun hcontra => hv hcontra.symm)
    · rw [if_neg hcond] at hne
      exact absurd rfl hne
  · intro r hr hv hlt
    unfold upsert_profile_fact
    rw [hr]
    dsimp only
    rw [if_neg ?_]
    push_neg
    exact ⟨le_of_lt hlt, hv⟩

theorem claim_c3_witness :
    upsert_profile_fact [⟨"k", "v", 1, 0, "conversation"⟩] "k" "v" 0 "conversation" 5 =
      [⟨"k", "v", 1, 0, "conversation"⟩] :=
  (claim_c3_confidence_upsert [⟨"k", "v", 1, 0, "conversation"⟩] "k" "v" 0
      "conversation" 5).2 ⟨"k", "v", 1, 0, "conversation"⟩ (by decide) rfl (by decide)

/-- A row of the ai_insights table. -/
structure InsightRec where
  id : ℕ
  text : String
  hash : List Char
  category : String
  relevance : ℚ
  timestamp : ℕ
deriving DecidableEq

/-- The core-fact keywords of memory.smart_memory_management. -/
def core_fact_keywords : List String :=
  ["name", "age", "birthday", "family", "job", "profession", "location", "city", "country"]

/-- The per-keyword profile UPDATE of smart_memory_management: facts whose key
or value matches the keyword get their confidence raised by 0.1, capped at 1. -/
def boost_profile_step (db : List ProfileFact) (kw : String) : List ProfileFact :=
  db.map (fun r =>
    if likeContains r.key kw || likeContains r.value kw then
      { r with confidence := if r.confidence < 1 then r.confidence + 1 / 10 else 1 }
    else r)

/-- The user_profile part of memory.smart_memory_management: one boosting
UPDATE per core keyword, and no deletion at all. -/
def smart_memory_management_profile (db : List ProfileFact) : List ProfileFact :=
  core_fact_keywords.foldl boost_profile_step db

/-- The summary aging UPDATE of smart_memory_management: decay by factor 0.95
the summaries older than the 30-day cutoff with relevance below 0.6. -/
def age_summary_step (c30 : ℕ) (r : SummaryRec) : SummaryRec :=
  if r.timestamp < c30 ∧ r.relevance < 6 / 10 then
    { r with relevance := r.relevance * (19 / 20) }
  else r

/-- The summary DELETE condition of smart_memory_management: older than the
180-day cutoff, relevance below 0.1, and the text matches neither
LIKE pattern for name nor for important. -/
def summary_delete_cond (c180 : ℕ) (r : SummaryRec) : Bool :=
  decide (r.timestamp < c180) && decide (r.relevance < 1 / 10) &&
    !(likeContains r.text "name") && !(likeContains r.text "important")

/-- The conversation_summaries part of memory.smart_memory_management: age
the old low-relevance summaries, then purge the very old, very low relevance
ones not mentioning name or important. -/
def smart_memory_management_summaries (c30 c180 : ℕ) (store : List SummaryRec) :
    List SummaryRec :=
  (store.map (age_summary_step c30)).filter (fun r => !(summary_delete_cond c180 r))

/-- The insight aging UPDATE of smart_memory_management: decay by factor 0.98
the general-category insights older than the 30-day cutoff with relevance
below 0.5. -/
def age_insight_step (c30 : ℕ) (r : InsightRec) : InsightRec :=
  if r.timestamp < c30 ∧ r.category = "general" ∧ r.relevance < 1 / 2 then
    { r with relevance := r.relevance * (49 / 50) }
  else r

/-- The insight DELETE condition of smart_memory_management: older than the
365-day cutoff, relevance below 0.05 and general category, with no keyword
protection of any kind. -/
def insight_delete_cond (c365 : ℕ) (r : InsightRec) : Bool :=
  decide (r.timestamp < c365) && decide (r.relevance < 1 / 20) && (r.category == "general")

/-- The ai_insights part of memory.smart_memory_management. -/
def smart_memory_management_insights (c30 c365 : ℕ) (store : List InsightRec) :
    List InsightRec :=
  (store.map (age_insight_step c30)).filter (fun r => !(insight_delete_cond c365 r))

/-- One merge step bookkeeping of memory.consolidate_similar_memories: the
kept row gets its relevance raised by 0.1. -/
def updateKeep (db : List SummaryRec) (keepId : ℕ) : List SummaryRec :=
  db.map (fun r => if r.id == keepId then { r with relevance := r.relevance + 1 / 10 } else r)

/-- One merge step bookkeeping of memory.consolidate_similar_memories: the
merged row is deleted. -/
def removeId (db : List SummaryRec) (remId : ℕ) : List SummaryRec :=
  db.filter (fun r => !(r.id == remId))

/-- The nested loop of memory.consolidate_similar_memories: the outer loop
walks the snapshot of all summaries (most recent first); for each row the
inner loop finds the first later snapshot row with similarity above 0.85,
keeps the one with the higher snapshot relevance (ties keep the earlier row),
raises the kept relevance by 0.1, deletes the other, and breaks to the next
outer row.  The snapshot is not refreshed, exactly as in the Python code. -/
def consolidateLoop : List SummaryRec → List SummaryRec → List SummaryRec
  | [], db => db
  | s1 :: rest, db =>
    match rest.find? (fun s2 => decide (calculate_text_similarity s1.text s2.text > 17 / 20)) with
    | none => consolidateLoop rest db
    | some s2 =>
      if s1.relevance ≥ s2.relevance then
        consolidateLoop rest (removeId (updateKeep db s1.id) s2.id)
      else
        consolidateLoop rest (removeId (updateKeep db s2.id) s1.id)

/-- memory.consolidate_similar_memories on the summaries table. -/
def consolidate_similar_memories (db : List SummaryRec) : List SummaryRec :=
  consolidateLoop db db

theorem age_summary_step_text (c30 : ℕ) (r : SummaryRec) :
    (age_summary_step c30 r).text = r.text := by
  unfold age_summary_step
  split <;> rfl

theorem age_summary_step_id (c30 : ℕ) (r : SummaryRec) :
    (age_summary_step c30 r).id = r.id := by
  unfold age_summary_step
  split <;> rfl

theorem boost_foldl_length :
    ∀ (kws : List String) (db : List ProfileFact),
      (kws.foldl boost_profile_step db).length = db.length := by
  intro kws
  induction kws with
  | nil => intro db; rfl
  | cons kw rest ih =>
    intro db
    rw [List.foldl_cons, ih]
    unfold boost_profile_step
    rw [List.length_map]

/-- C8 counterexample: the purge of smart_memory_management deletes an old,
low-relevance summary whose text contains the core keyword age (only the
patterns for name and important protect summaries), and deletes an old,
low-relevance general insight whose text contains the core keyword name
(insights have no keyword protection at all). -/
theorem claim_c8_counterexample :
    likeContains "my age is 30" "age" = true ∧
    smart_memory_management_summaries 1000 500
        [⟨0, "my age is 30", generate_content_hash "my age is 30", 0, 0⟩] = [] ∧
    likeContains "the users name is Bob" "name" = true ∧
    smart_memory_management_insights 1000 400
        [⟨0, "the users name is Bob", generate_content_hash "the users name is Bob",
          "general", 0, 0⟩] = [] := by
  refine ⟨by decide, ?_, by decide, ?_⟩
  · unfold smart_memory_management_summaries
    rw [List.map_singleton]
    unfold age_summary_step
    rw [if_pos ⟨by norm_num, by norm_num⟩]
    have hdel : summary_delete_cond 500
        (⟨0, "my age is 30", generate_content_hash "my age is 30", 0, 0⟩ :
          SummaryRec) = true := by
      unfold summary_delete_cond
      have h1 : ((0 : ℚ) < 1 / 10) := by norm_num
      simp [h1, (by decide : likeContains "my age is 30" "name" = false),
        (by decide : likeContains "my age is 30" "important" = false)]
    simp [List.filter, zero_mul, hdel]
  · unfold smart_memory_management_insights
    rw [List.map_singleton]
    unfold age_insight_step
    rw [if_pos ⟨by norm_num, rfl, by norm_num⟩]
    have hdel : insight_delete_cond 400
        (⟨0, "the users name is Bob", generate_content_hash "the users name is Bob",
          "general", 0, 0⟩ : InsightRec) = true := by
      unfold insight_delete_cond
      have h1 : ((0 : ℚ) < 1 / 20) := by norm_num
      simp [h1]
    simp [List.filter, zero_mul, hdel]

/-- C8 amended: the purge step of smart_memory_management never removes a
profile fact, and never removes a summary whose text matches the name or
important LIKE pattern; summaries containing only the other core keywords,
and all insights, enjoy no such protection (see the counterexample). -/
theorem claim_c8_amended (c30 c180 : ℕ) (store : List SummaryRec)
    (pstore : List ProfileFact) (r : SummaryRec) (hr : r ∈ store)
    (hkw : likeContains r.text "name" = true ∨ likeContains r.text "important" = true) :
    (∃ r2 ∈ smart_memory_management_summaries c30 c180 store,
        r2.id = r.id ∧ r2.text = r.text) ∧
    (smart_memory_management_profile pstore).length = pstore.length := by
  constructor
  · refine ⟨age_summary_step c30 r, ?_, age_summary_step_id c30 r, age_summary_step_text c30 r⟩
    unfold smart_memory_management_summaries
    rw [List.mem_filter]
    refine ⟨List.mem_map_of_mem _ hr, ?_⟩
    have hcond : summary_delete_cond c180 (age_summary_step c30 r) = false := by
      unfold summary_delete_cond
      rcases hkw with hk | hk
      · rw [age_summary_step_text, hk]
        simp
      · rw [age_summary_step_text, hk]
        simp
    rw [hcond]
    rfl
  · exact boost_foldl_length core_fact_keywords pstore

theorem claim_c8_witness :
    (∃ r2 ∈ smart_memory_management_summaries 10 10
        [⟨0, "user name", generate_content_hash "user name", 0, 0⟩],
      r2.id = 0 ∧ r2.text = "user name") ∧
    (smart_memory_management_profile []).length = ([] : List ProfileFact).length :=
  claim_c8_amended 10 10 _ []
    ⟨0, "user name", generate_content_hash "user name", 0, 0⟩
    (List.mem_singleton.mpr rfl) (Or.inl (by decide))

theorem consolidateLoop_cons (s1 : SummaryRec) (rest db : List SummaryRec) :
    consolidateLoop (s1 :: rest) db =
      match rest.find?
          (fun s2 => decide (calculate_text_similarity s1.text s2.text > 17 / 20)) with
      | none => consolidateLoop rest db
      | some s2 =>
        if s1.relevance ≥ s2.relevance then
          consolidateLoop rest (removeId (updateKeep db s1.id) s2.id)
        else consolidateLoop rest (removeId (updateKeep db s2.id) s1.id) := rfl

theorem updateKeep_nonneg {db : List SummaryRec}
    (h : ∀ r ∈ db, 0 ≤ r.relevance) (k : ℕ) :
    ∀ r ∈ updateKeep db k, 0 ≤ r.relevance := by
  intro r hr
  rcases List.mem_map.mp hr with ⟨x, hx, rfl⟩
  split
  · exact add_nonneg (h x hx) (by norm_num)
  · exact h x hx

theorem removeId_nonneg {db : List SummaryRec}
    (h : ∀ r ∈ db, 0 ≤ r.relevance) (k : ℕ) :
    ∀ r ∈ removeId db k, 0 ≤ r.relevance :=
  fun r hr => h r (List.mem_of_mem_filter hr)

theorem consolidateLoop_nonneg :
    ∀ (snap db : List SummaryRec), (∀ r ∈ db, 0 ≤ r.relevance) →
      ∀ r ∈ consolidateLoop snap db, 0 ≤ r.relevance := by
  intro snap
  induction snap with
  | nil => intro db hdb r hr; exact hdb r hr
  | cons s1 rest ih =>
    intro db hdb r hr
    rw [consolidateLoop_cons] at hr
    cases hfind : rest.find?
        (fun s2 => decide (calculate_text_similarity s1.text s2.text > 17 / 20)) with
    | none =>
      rw [hfind] at hr
      exact ih db hdb r hr
    | some s2 =>
      rw [hfind] at hr
      dsimp only at hr
      by_cases hge : s1.relevance ≥ s2.relevance
      · rw [if_pos hge] at hr
        exact ih _ (removeId_nonneg (updateKeep_nonneg hdb s1.id) s2.id) r hr
      · rw [if_neg hge] at hr
        exact ih _ (removeId_nonneg (updateKeep_nonneg hdb s2.id) s1.id) r hr

/-- C5 amended: scores in [0,1] are preserved by add_summary (when called
with a score in [0,1]) and by smart_memory_management, while
consolidate_similar_memories only preserves the lower bound 0: merging adds
0.1 to the kept summary without clamping, so a score can exceed 1 (see the
counterexample). -/
theorem claim_c5_amended (store : List SummaryRec) (t : String) (rel : ℚ)
    (i n c30 c180 : ℕ)
    (hstore : ∀ r ∈ store, 0 ≤ r.relevance ∧ r.relevance ≤ 1)
    (hrel : 0 ≤ rel ∧ rel ≤ 1) :
    (∀ r ∈ add_summary store t rel i n, 0 ≤ r.relevance ∧ r.relevance ≤ 1) ∧
    (∀ r ∈ smart_memory_management_summaries c30 c180 store,
        0 ≤ r.relevance ∧ r.relevance ≤ 1) ∧
    (∀ r ∈ consolidate_similar_memories store, 0 ≤ r.relevance) := by
  refine ⟨?_, ?_, ?_⟩
  · intro r hr
    unfold add_summary at hr
    split at hr
    · exact hstore r hr
    · split at hr
      · exact hstore r hr
      · rcases List.mem_cons.mp hr with rfl | hmem
        · exact hrel
        · exact hstore r hmem
  · intro r hr
    unfold smart_memory_management_summaries at hr
    rcases List.mem_map.mp (List.mem_of_mem_filter hr) with ⟨x, hx, rfl⟩
    unfold age_summary_step
    split
    · have h0 := (hstore x hx).1
      have h1 := (hstore x hx).2
      constructor
      · nlinarith
      · nlinarith
    · exact hstore x hx
  · exact consolidateLoop_nonneg store store (fun r hr => (hstore r hr).1)

theorem claim_c5_witness :
    (∀ r ∈ add_summary [⟨0, "x y", generate_content_hash "x y", 1, 0⟩] "p q" 1 1 1,
        0 ≤ r.relevance ∧ r.relevance ≤ 1) ∧
    (∀ r ∈ smart_memory_management_summaries 10 10
        [⟨0, "x y", generate_content_hash "x y", 1, 0⟩],
        0 ≤ r.relevance ∧ r.relevance ≤ 1) ∧
    (∀ r ∈ consolidate_similar_memories [⟨0, "x y", generate_content_hash "x y", 1, 0⟩],
        0 ≤ r.relevance) :=
  claim_c5_amended [⟨0, "x y", generate_content_hash "x y", 1, 0⟩] "p q" 1 1 1 10 10
    (by decide) (by decide)

/-- C5 counterexample: starting from two stored summaries with the same word
set and relevance 1, one consolidation pass merges them and raises the kept
relevance to 1.1, leaving a stored summary whose relevance_score exceeds 1. -/
theorem claim_c5_counterexample :
    (∀ r ∈ [(⟨1, "a b", generate_content_hash "a b", 1, 1⟩ : SummaryRec),
            ⟨0, "b a", generate_content_hash "b a", 1, 0⟩],
        0 ≤ r.relevance ∧ r.relevance ≤ 1) ∧
    ¬ (∀ r ∈ consolidate_similar_memories
          [⟨1, "a b", generate_content_hash "a b", 1, 1⟩,
           ⟨0, "b a", generate_content_hash "b a", 1, 0⟩],
        r.relevance ≤ 1) := by
  constructor
  · decide
  · have hsim : decide (calculate_text_similarity "a b" "b a" > 17 / 20) = true := by
      rw [decide_eq_true_eq, sim_of_eq_wordSet (by decide) (by decide)]
      norm_num
    have hfind : List.find?
        (fun s2 : SummaryRec => decide (calculate_text_similarity "a b" s2.text > 17 / 20))
        [⟨0, "b a", generate_content_hash "b a", 1, 0⟩] =
        some (⟨0, "b a", generate_content_hash "b a", 1, 0⟩ : SummaryRec) := by
      simp [List.find?, hsim]
    have heval : consolidate_similar_memories
        [⟨1, "a b", generate_content_hash "a b", 1, 1⟩,
         ⟨0, "b a", generate_content_hash "b a", 1, 0⟩] =
        [⟨1, "a b", generate_content_hash "a b", 1 + 1 / 10, 1⟩] := by
      unfold consolidate_similar_memories
      rw [consolidateLoop_cons, hfind]
      dsimp only
      rw [if_pos (le_refl (1 : ℚ))]
      simp [consolidateLoop, List.find?, updateKeep, removeId, List.filter]
    rw [heval]
    intro hall
    have := hall ⟨1, "a b", generate_content_hash "a b", 1 + 1 / 10, 1⟩
      (List.mem_singleton.mpr rfl)
    norm_num at this

theorem sim_not_gt_of_disjoint {t1 t2 : String}
    (h : (wordSet t1 ∩ wordSet t2).card = 0) :
    ¬ (decide (calculate_text_similarity t1 t2 > 7 / 10) = true) := by
  rw [decide_eq_true_eq, sim_zero h]
  norm_num

theorem consolidateLoop_no_merge :
    ∀ (snap db : List SummaryRec),
      snap.Pairwise (fun a b => calculate_text_similarity a.text b.text ≤ 17 / 20) →
      consolidateLoop snap db = db := by
  intro snap
  induction snap with
  | nil => intro db _; rfl
  | cons s1 rest ih =>
    intro db hp
    rw [List.pairwise_cons] at hp
    have hfind : rest.find?
        (fun s2 => decide (calculate_text_similarity s1.text s2.text > 17 / 20)) = none := by
      rw [List.find?_eq_none]
      intro x hx
      rw [decide_eq_true_eq]
      exact not_lt.mpr (hp.1 x hx)
    rw [consolidateLoop_cons, hfind]
    exact ih db hp.2

/-- The concrete store of the C7 counterexample: ten recent summaries with
words disjoint from the incoming text, plus an older eleventh summary that is
5/7-similar to it but outside the 10-most-recent window checked by
add_summary. -/
def exC7store : List SummaryRec :=
  [⟨11, "aa bb", generate_content_hash "aa bb", 1, 11⟩,
   ⟨10, "cc dd", generate_content_hash "cc dd", 1, 10⟩,
   ⟨9, "ee ff", generate_content_hash "ee ff", 1, 9⟩,
   ⟨8, "gg hh", generate_content_hash "gg hh", 1, 8⟩,
   ⟨7, "ii jj", generate_content_hash "ii jj", 1, 7⟩,
   ⟨6, "kk ll", generate_content_hash "kk ll", 1, 6⟩,
   ⟨5, "mm nn", generate_content_hash "mm nn", 1, 5⟩,
   ⟨4, "oo pp", generate_content_hash "oo pp", 1, 4⟩,
   ⟨3, "qq rr", generate_content_hash "qq rr", 1, 3⟩,
   ⟨2, "ss tt", generate_content_hash "ss tt", 1, 2⟩,
   ⟨1, "a b c d e f", generate_content_hash "a b c d e f", 1, 1⟩]

/-- C7 counterexample: add_summary only checks the 10 most recent summaries,
so it inserts a text whose similarity with an older stored summary is 5/7,
which exceeds 0.7; after the call two stored summaries are more than
0.7-similar. -/
theorem claim_c7_counterexample :
    (⟨12, "a b c d e g", generate_content_hash "a b c d e g", 1, 12⟩ : SummaryRec) ∈
        add_summary exC7store "a b c d e g" 1 12 12 ∧
    (⟨1, "a b c d e f", generate_content_hash "a b c d e f", 1, 1⟩ : SummaryRec) ∈
        add_summary exC7store "a b c d e g" 1 12 12 ∧
    calculate_text_similarity "a b c d e g" "a b c d e f" > 7 / 10 := by
  have hsimf : similarRecent exC7store "a b c d e g" = false := by
    unfold similarRecent
    rw [List.any_eq_false]
    intro r hr
    fin_cases hr <;> exact sim_not_gt_of_disjoint (by decide)
  have heq : add_summary exC7store "a b c d e g" 1 12 12 =
      ⟨12, "a b c d e g", generate_content_hash "a b c d e g", 1, 12⟩ :: exC7store :=
    add_summary_insert_eq (by decide) hsimf
  refine ⟨?_, ?_, ?_⟩
  · rw [heq]; exact List.mem_cons_self _ _
  · rw [heq]
    exact List.mem_cons_of_mem _ (by decide)
  · rw [sim_eval (by decide) (by decide) (by decide : _ = 5) (by decide : _ = 7)]
    norm_num

/-- C7 amended: an inserting add_summary call guarantees similarity at most
0.7 only against the 10 most recently stored summaries, and a consolidation
pass merges only pairs with similarity above 0.85: a store whose pairwise
similarities are all at most 0.85 is left unchanged by consolidation, so
stored pairs with similarity in (0.7, 0.85], or above 0.7 involving a summary
outside the 10-most-recent window, can persist (see the counterexample). -/
theorem claim_c7_amended (store : List SummaryRec) (t : String) (rel : ℚ)
    (i n : ℕ) (hins : add_summary store t rel i n ≠ store)
    (hpair : store.Pairwise
      (fun a b => calculate_text_similarity a.text b.text ≤ 17 / 20)) :
    (∀ r ∈ store.take 10, calculate_text_similarity t r.text ≤ 7 / 10) ∧
    consolidate_similar_memories store = store := by
  constructor
  · have h2 : similarRecent store t = false := by
      by_cases hc : similarRecent store t = true
      · by_cases h1 : hashDup store (generate_content_hash t) = true
        · exact absurd (add_summary_skip_hash h1) hins
        · exact absurd (add_summary_skip_sim (by simpa using h1) hc) hins
      · simpa using hc
    unfold similarRecent at h2
    intro r hr
    have := List.any_eq_false.mp h2 r hr
    rw [decide_eq_true_eq] at this
    exact not_lt.mp this
  · exact consolidateLoop_no_merge store store hpair

theorem claim_c7_witness :
    (∀ r ∈ ([] : List SummaryRec).take 10,
        calculate_text_similarity "a" r.text ≤ 7 / 10) ∧
    consolidate_similar_memories [] = [] :=
  claim_c7_amended [] "a" 1 0 0 (by decide) List.Pairwise.nil

/-- One re.sub removal pass for the non-greedy pattern matching a think tag
pair with arbitrary content, as in memory_ai.analyze_conversation_importance:
find the first opening tag followed by some closing tag, delete from the
opening tag through the first subsequent closing tag, and continue after the
deleted span.  The fuel argument only bounds the recursion depth. -/
def removeThinkFuel : ℕ → List Char → List Char
  | 0, l => l
  | fuel + 1, l =>
    match findSub ("<think>".data) l with
    | none => l
    | some i =>
      match findSub ("</think>".data) (l.drop (i + 7)) with
      | none => l
      | some j => l.take i ++ removeThinkFuel fuel ((l.drop (i + 7)).drop (j + 8))

/-- The re.sub cleaning step of analyze_conversation_importance. -/
def removeThink (l : List Char) : List Char := removeThinkFuel l.length l

/-- The regex fragment matching a decimal number (digits, an optional dot,
then at least one digit) at the start of the character list, with the greedy
backtracking semantics of the Python pattern. -/
def matchNumAt (cs : List Char) : Option (List Char) :=
  let d1 := cs.takeWhile (fun c => c.isDigit)
  match cs.drop d1.length with
  | '.' :: rest2 =>
    let d2 := rest2.takeWhile (fun c => c.isDigit)
    if d2.isEmpty then (if d1.isEmpty then none else some d1)
    else some (d1 ++ '.' :: d2)
  | _ => if d1.isEmpty then none else some d1

/-- re.search for the decimal-number pattern: the match at the leftmost
position where one exists. -/
def searchNum : List Char → Option (List Char)
  | [] => none
  | c :: cs =>
    match matchNumAt (c :: cs) with
    | some m => some m
    | none => searchNum cs

/-- The numeric value of a digit string. -/
def digitsToNat (ds : List Char) : ℕ :=
  ds.foldl (fun n c => 10 * n + (c.toNat - 48)) 0

/-- Python float() on a matched decimal literal, modelled exactly as a
rational. -/
def parseDec (m : List Char) : ℚ :=
  let ip := m.takeWhile (fun c => c.isDigit)
  match m.drop ip.length with
  | '.' :: frac => (digitsToNat ip : ℚ) + (digitsToNat frac : ℚ) / ((10 : ℚ) ^ frac.length)
  | _ => (digitsToNat ip : ℚ)

/-- The number-extraction pipeline of analyze_conversation_importance: strip
think tags from the LLM response, strip whitespace, search for the decimal
pattern and convert the match to a number. -/
def extractedScore (response : String) : Option ℚ :=
  (searchNum (pyStrip (removeThink response.data))).map parseDec

/-- The keyword lists of the heuristic fallback of
analyze_conversation_importance, in the order tested by the code. -/
def importanceKeywordsHigh : List String :=
  ["favorite", "prefer", "like", "love", "hate", "remember", "important"]

def importanceKeywordsMed : List String :=
  ["project", "work", "coding", "programming", "ai", "think"]

def importanceKeywordsLow : List String :=
  ["hello", "hi", "hey", "thanks", "ok", "yes", "no"]

/-- The heuristic fallback of analyze_conversation_importance on the
lower-cased concatenation of the user and AI messages: 0.7 for
preference/importance keywords, 0.5 for work/technical keywords, 0.2 for
greeting keywords, 0.4 otherwise (keyword tests are substring tests). -/
def fallbackImportance (user_msg ai_msg : String) : ℚ :=
  let combined := (user_msg ++ " " ++ ai_msg).data.map Char.toLower
  if importanceKeywordsHigh.any (fun w => containsSub combined w) then 7 / 10
  else if importanceKeywordsMed.any (fun w => containsSub combined w) then 1 / 2
  else if importanceKeywordsLow.any (fun w => containsSub combined w) then 1 / 5
  else 2 / 5

/-- memory_ai.analyze_conversation_importance, with the LLM response passed
as an oracle parameter (a failed or unconfigured call yields the empty
string, from which no number can be extracted): on a successful extraction
the score is divided by 10 when above 1 and then clamped to [0,1]; otherwise
the keyword heuristic decides. -/
def analyze_conversation_importance (user_msg ai_msg response : String) : ℚ :=
  match extractedScore response with
  | some s0 => min (max (if s0 > 1 then s0 / 10 else s0) 0) 1
  | none => fallbackImportance user_msg ai_msg

/-- Modelled from the claim wording of C6: the regex-extracted decimal
clamped to [0,1] with no other transformation, with the same heuristic
fallback otherwise. -/
def claimedImportance (user_msg ai_msg response : String) : ℚ :=
  match extractedScore response with
  | some s0 => min (max s0 0) 1
  | none => fallbackImportance user_msg ai_msg

/-- C6 counterexample: on the LLM response 5 the code divides by 10 and
returns 0.5, while the claimed clamp of the extracted decimal would return 1,
so the claim misses the divide-by-10 normalisation of scores above 1. -/
theorem claim_c6_counterexample :
    analyze_conversation_importance "x" "y" "5" = 1 / 2 ∧
    claimedImportance "x" "y" "5" = 1 ∧ ((1 : ℚ) / 2 ≠ 1) := by
  have hex : extractedScore "5" = some ((5 : ℕ) : ℚ) := by decide
  refine ⟨?_, ?_, by norm_num⟩
  · unfold analyze_conversation_importance
    rw [hex]
    dsimp only
    rw [if_pos (by norm_num : ((5 : ℕ) : ℚ) > 1)]
    rw [max_eq_left (by norm_num), min_eq_left (by norm_num)]
    norm_num
  · unfold claimedImportance
    rw [hex]
    dsimp only
    rw [max_eq_left (by norm_num), min_eq_right (by norm_num)]

/-- C6 amended: on every response from which a decimal can be extracted,
analyze_conversation_importance returns that decimal, divided by 10 when it
exceeds 1 and then clamped to [0,1]; when no decimal can be extracted (in
particular after a failed call, whose response is empty) it returns the
keyword heuristic score, and the result always lies in [0,1]. -/
theorem claim_c6_amended (u a response : String) :
    (∀ q : ℚ, extractedScore response = some q →
      analyze_conversation_importance u a response =
        min (max (if q > 1 then q / 10 else q) 0) 1) ∧
    (extractedScore response = none →
      analyze_conversation_importance u a response = fallbackImportance u a) ∧
    0 ≤ analyze_conversation_importance u a response ∧
    analyze_conversation_importance u a response ≤ 1 := by
  refine ⟨?_, ?_, ?_⟩
  · intro q hq
    unfold analyze_conversation_importance
    rw [hq]
  · intro hq
    unfold analyze_conversation_importance
    rw [hq]
  · unfold analyze_conversation_importance
    cases hc : extractedScore response with
    | some q =>
      constructor
      · exact le_min (le_max_right _ _) (by norm_num)
      · exact min_le_right _ _
    | none =>
      dsimp only
      unfold fallbackImportance
      dsimp only
      constructor
      · split_ifs <;> norm_num
      · split_ifs <;> norm_num

theorem claim_c6_witness :
    analyze_conversation_importance "x" "y" "0" =
      min (max (if ((0 : ℕ) : ℚ) > 1 then ((0 : ℕ) : ℚ) / 10 else ((0 : ℕ) : ℚ)) 0) 1 :=
  (claim_c6_amended "x" "y" "0").1 ((0 : ℕ) : ℚ) (by decide)

/-- The emergency apology string of llm_interface.generate_response. -/
def emergency_fallback : String :=
  "I\x27m having some technical difficulties. Please check your Groq API key and try again."

/-- Python str.strip applied to a reply string. -/
def stripReply (s : String) : String := String.mk (pyStrip s.data)

/-- llm_interface.generate_model_response, with the Groq chat completion call
passed as an oracle (a reply text or a raised exception): raises when no
client is configured, otherwise returns the stripped reply or propagates the
exception of the call. -/
def generate_model_response (client : Bool) (oracle : Except String String) :
    Except String String :=
  if client then oracle.map stripReply
  else Except.error "Groq client not available"

/-- llm_interface.generate_response: when a client is configured it calls
generate_model_response inside try/except; any exception is caught and the
emergency apology string is returned, as it also is when no client is
configured. -/
def generate_response (client : Bool) (oracle : Except String String) :
    Except String String :=
  if client then
    match generate_model_response client oracle with
    | Except.ok reply => Except.ok reply
    | Except.error _ => Except.ok emergency_fallback
  else Except.ok emergency_fallback

/-- llm_interface.generate_groq_response: no try/except at all; the attribute
access on a missing client raises, and any exception of the chat completion
call propagates to the caller. -/
def generate_groq_response (client : Bool) (oracle : Except String String) :
    Except String String :=
  if client then oracle.map stripReply
  else Except.error "AttributeError: NoneType object has no attribute chat"

/-- C9 counterexample: generate_groq_response propagates the exception of a
failed chat completion call instead of catching it and returning the
emergency apology string. -/
theorem claim_c9_counterexample :
    generate_groq_response true (Except.error "APIConnectionError") =
      Except.error "APIConnectionError" ∧
    Except.error "APIConnectionError" ≠
      (Except.ok emergency_fallback : Except String String) := by
  constructor
  · rfl
  · intro h
    exact Except.noConfusion h

/-- C9 amended: generate_response never propagates an exception of the LLM
collaborator: for every oracle behaviour it returns some string, and it
returns the emergency apology string whenever no client is configured or the
call raises; generate_groq_response, by contrast, propagates exceptions (see
the counterexample). -/
theorem claim_c9_amended (client : Bool) (oracle : Except String String) :
    (∃ s, generate_response client oracle = Except.ok s) ∧
    (client = false → generate_response client oracle = Except.ok emergency_fallback) ∧
    (∀ e, oracle = Except.error e →
      generate_response client oracle = Except.ok emergency_fallback) := by
  refine ⟨?_, ?_, ?_⟩
  · cases client with
    | false => exact ⟨emergency_fallback, rfl⟩
    | true =>
      cases oracle with
      | ok r => exact ⟨stripReply r, rfl⟩
      | error e => exact ⟨emergency_fallback, rfl⟩
  · intro hc
    rw [hc]
    rfl
  · intro e he
    rw [he]
    cases client <;> rfl

theorem claim_c9_witness :
    generate_response false (Except.error "APIConnectionError") =
      Except.ok emergency_fallback :=
  (claim_c9_amended false (Except.error "APIConnectionError")).2.1 rfl

